import Mathlib

/-!
Verification of `codetools/contexts/context_function.py`.

The module rewrites a Python 2 function's bytecode so every local-,
global- and closure-variable access goes through a caller-supplied mapping
("context") instead of the fast-locals frame, and re-implements Python's
argument-binding convention by hand.  We embed the module shallowly:

* the instruction codec `parse_bytecode` / `compile_bytecode`,
* the operand remapper `patch_load_and_store`,
* the executable rebuilder `args_to_locals`,
* the calling-convention emulator `new_f` inside `context_function`.

Python byte strings are `List Nat` (each entry `< 256`), `dis.opname` /
`dis.opmap` are embedded from the CPython 2 opcode table (2.7, the
interpreter family this module targets; every opcode the module manipulates
is identical across 2.x), machine shorts follow `struct`'s `"<h"` format
with explicit two's-complement arithmetic, and every fallible operation
returns `Option` or `Except String`.
-/

set_option maxRecDepth 2000

namespace ContextFn

/-- The CPython 2 opcode table: `(opcode, dis.opname[opcode])` for every
defined opcode.  Entries are in opcode order. -/
def opList : List (Nat × String) := [
  (0, "STOP_CODE"), (1, "POP_TOP"), (2, "ROT_TWO"), (3, "ROT_THREE"),
  (4, "DUP_TOP"), (5, "ROT_FOUR"), (9, "NOP"),
  (10, "UNARY_POSITIVE"), (11, "UNARY_NEGATIVE"), (12, "UNARY_NOT"),
  (13, "UNARY_CONVERT"), (15, "UNARY_INVERT"),
  (19, "BINARY_POWER"), (20, "BINARY_MULTIPLY"), (21, "BINARY_DIVIDE"),
  (22, "BINARY_MODULO"), (23, "BINARY_ADD"), (24, "BINARY_SUBTRACT"),
  (25, "BINARY_SUBSCR"), (26, "BINARY_FLOOR_DIVIDE"),
  (27, "BINARY_TRUE_DIVIDE"), (28, "INPLACE_FLOOR_DIVIDE"),
  (29, "INPLACE_TRUE_DIVIDE"),
  (30, "SLICE+0"), (31, "SLICE+1"), (32, "SLICE+2"), (33, "SLICE+3"),
  (40, "STORE_SLICE+0"), (41, "STORE_SLICE+1"), (42, "STORE_SLICE+2"),
  (43, "STORE_SLICE+3"),
  (50, "DELETE_SLICE+0"), (51, "DELETE_SLICE+1"), (52, "DELETE_SLICE+2"),
  (53, "DELETE_SLICE+3"),
  (54, "STORE_MAP"), (55, "INPLACE_ADD"), (56, "INPLACE_SUBTRACT"),
  (57, "INPLACE_MULTIPLY"), (58, "INPLACE_DIVIDE"), (59, "INPLACE_MODULO"),
  (60, "STORE_SUBSCR"), (61, "DELETE_SUBSCR"),
  (62, "BINARY_LSHIFT"), (63, "BINARY_RSHIFT"), (64, "BINARY_AND"),
  (65, "BINARY_XOR"), (66, "BINARY_OR"), (67, "INPLACE_POWER"),
  (68, "GET_ITER"),
  (70, "PRINT_EXPR"), (71, "PRINT_ITEM"), (72, "PRINT_NEWLINE"),
  (73, "PRINT_ITEM_TO"), (74, "PRINT_NEWLINE_TO"),
  (75, "INPLACE_LSHIFT"), (76, "INPLACE_RSHIFT"), (77, "INPLACE_AND"),
  (78, "INPLACE_XOR"), (79, "INPLACE_OR"),
  (80, "BREAK_LOOP"), (81, "WITH_CLEANUP"), (82, "LOAD_LOCALS"),
  (83, "RETURN_VALUE"), (84, "IMPORT_STAR"), (85, "EXEC_STMT"),
  (86, "YIELD_VALUE"), (87, "POP_BLOCK"), (88, "END_FINALLY"),
  (89, "BUILD_CLASS"),
  (90, "STORE_NAME"), (91, "DELETE_NAME"), (92, "UNPACK_SEQUENCE"),
  (93, "FOR_ITER"), (94, "LIST_APPEND"), (95, "STORE_ATTR"),
  (96, "DELETE_ATTR"), (97, "STORE_GLOBAL"), (98, "DELETE_GLOBAL"),
  (99, "DUP_TOPX"), (100, "LOAD_CONST"), (101, "LOAD_NAME"),
  (102, "BUILD_TUPLE"), (103, "BUILD_LIST"), (104, "BUILD_SET"),
  (105, "BUILD_MAP"), (106, "LOAD_ATTR"), (107, "COMPARE_OP"),
  (108, "IMPORT_NAME"), (109, "IMPORT_FROM"),
  (110, "JUMP_FORWARD"), (111, "JUMP_IF_FALSE_OR_POP"),
  (112, "JUMP_IF_TRUE_OR_POP"), (113, "JUMP_ABSOLUTE"),
  (114, "POP_JUMP_IF_FALSE"), (115, "POP_JUMP_IF_TRUE"),
  (116, "LOAD_GLOBAL"), (119, "CONTINUE_LOOP"),
  (120, "SETUP_LOOP"), (121, "SETUP_EXCEPT"), (122, "SETUP_FINALLY"),
  (124, "LOAD_FAST"), (125, "STORE_FAST"), (126, "DELETE_FAST"),
  (130, "RAISE_VARARGS"), (131, "CALL_FUNCTION"), (132, "MAKE_FUNCTION"),
  (133, "BUILD_SLICE"), (134, "MAKE_CLOSURE"), (135, "LOAD_CLOSURE"),
  (136, "LOAD_DEREF"), (137, "STORE_DEREF"),
  (140, "CALL_FUNCTION_VAR"), (141, "CALL_FUNCTION_KW"),
  (142, "CALL_FUNCTION_VAR_KW"), (143, "SETUP_WITH"),
  (145, "EXTENDED_ARG"), (146, "SET_ADD"), (147, "MAP_ADD")]

/-- `dis.opname[b]`: the symbolic name of opcode `b`.  CPython initialises
the table with the placeholder `'<%r>' % (op,)` for every opcode and then
overwrites the defined ones, so an undefined opcode has the placeholder
name `"<b>"` rather than raising. -/
def opname (b : Nat) : String :=
  match opList.find? (fun p => p.1 == b) with
  | some p => p.2
  | none => s!"<{b}>"

/-- `dis.opmap`: mapping from a defined symbolic name back to its opcode.
Looking up a name that is not in the table (e.g. a placeholder) is a
`KeyError`, modelled by `none`. -/
def opmap (s : String) : Option Nat :=
  (opList.find? (fun p => p.2 == s)).map (fun p => p.1)

/-- `dis.HAVE_ARGUMENT`: opcodes `≥ 90` carry a two-byte operand. -/
def HAVE_ARGUMENT : Nat := 90

/-- An opcode is supported when it is a defined instruction, i.e. its
`dis.opname` entry maps back to it through `dis.opmap` (in CPython's
`opcode.py` the two tables are inverse on the defined opcodes, and
placeholders are in neither). -/
def supportedOp (b : Nat) : Bool := opmap (opname b) == some b

/-- A decoded instruction: `(operation name, optional operand)`, the
tuples produced by `parse_bytecode`. -/
abbrev Instr := String × Option Int

/-- `struct.unpack("<h", ..)`: two little-endian bytes as a signed
16-bit integer. -/
def unpackShort (a0 a1 : Nat) : Int :=
  if ((a0 : Int) + 256 * a1) < 32768 then (a0 : Int) + 256 * a1
  else (a0 : Int) + 256 * a1 - 65536

/-- `struct.pack("<h", x)`: a signed 16-bit integer as two little-endian
bytes; out-of-range values raise `struct.error` (here `none`). -/
def packShort (x : Int) : Option (List Nat) :=
  if -32768 ≤ x ∧ x ≤ 32767 then
    some [(x % 65536).toNat % 256, (x % 65536).toNat / 256]
  else none

mutual

/-- `parse_bytecode`: scan the byte string; each instruction is one opcode
byte, followed by a two-byte signed operand when the opcode is
`≥ HAVE_ARGUMENT`.  A truncated operand makes `struct.unpack` raise
(`none`); the opcode byte itself is looked up in `dis.opname`, which never
fails (undefined opcodes yield placeholder names). -/
def parse_bytecode : List Nat → Option (List Instr)
  | [] => some []
  | b :: rest =>
    if HAVE_ARGUMENT ≤ b then parseWithArg b rest
    else (parse_bytecode rest).map (fun is => (opname b, none) :: is)
termination_by structural l => l

/-- Reading the two operand bytes of an opcode `≥ HAVE_ARGUMENT`
(`struct.unpack("<h", bytes[i:i+2])`, which raises on a short slice). -/
def parseWithArg (b : Nat) : List Nat → Option (List Instr)
  | [] => none
  | [_] => none
  | a0 :: a1 :: rest =>
    (parse_bytecode rest).map (fun is => (opname b, some (unpackShort a0 a1)) :: is)
termination_by structural l => l

end

/-- One step of `compile_bytecode`:
`chr(dis.opmap[op]) + (struct.pack('<h', arg) if arg != None else '')`.
The `dis.opmap[op]` lookup raises `KeyError` for unknown names; the
`arg != None` conditional is split into the two operand cases. -/
def encodeOne : Instr → Option (List Nat)
  | (op, none) => (opmap op).map (fun b => [b])
  | (op, some x) =>
    (opmap op).bind (fun b => (packShort x).map (fun bs => b :: bs))

/-- `compile_bytecode`: join the per-instruction encodings. -/
def compile_bytecode : List Instr → Option (List Nat)
  | [] => some []
  | p :: rest =>
    match encodeOne p with
    | none => none
    | some e =>
      match compile_bytecode rest with
      | none => none
      | some es => some (e ++ es)

mutual

/-- A byte string drawn from the supported instruction set: every
instruction starts with a defined opcode, opcodes `≥ HAVE_ARGUMENT` are
followed by their two operand bytes, and all bytes are byte-sized. -/
def wfStream : List Nat → Bool
  | [] => true
  | b :: rest =>
    supportedOp b && decide (b < 256) &&
    (if HAVE_ARGUMENT ≤ b then wfOperand rest else wfStream rest)
termination_by structural l => l

/-- The operand bytes that must follow an opcode `≥ HAVE_ARGUMENT`. -/
def wfOperand : List Nat → Bool
  | [] => false
  | [_] => false
  | a0 :: a1 :: rest =>
    decide (a0 < 256) && decide (a1 < 256) && wfStream rest
termination_by structural l => l

end

theorem supportedOp_opmap {b : Nat} (h : supportedOp b = true) :
    opmap (opname b) = some b := by
  simpa [supportedOp] using h

/-- Packing the short that was just unpacked restores the two bytes. -/
theorem packShort_unpackShort (a0 a1 : Nat) (h0 : a0 < 256) (h1 : a1 < 256) :
    packShort (unpackShort a0 a1) = some [a0, a1] := by
  unfold unpackShort packShort
  by_cases h : ((a0 : Int) + 256 * a1) < 32768
  · rw [if_pos h, if_pos (by constructor <;> omega)]
    simp only [Option.some.injEq, List.cons.injEq, and_true]
    constructor <;> omega
  · rw [if_neg h, if_pos (by constructor <;> omega)]
    simp only [Option.some.injEq, List.cons.injEq, and_true]
    constructor <;> omega

theorem roundtrip_aux : ∀ (n : Nat) (s : List Nat), s.length ≤ n →
    wfStream s = true →
    (parse_bytecode s).bind compile_bytecode = some s := by
  intro n
  induction n with
  | zero =>
    intro s hlen _hwf
    have : s = [] := List.eq_nil_of_length_eq_zero (Nat.le_zero.mp hlen)
    subst this
    rfl
  | succ k ih =>
    intro s hlen hwf
    cases s with
    | nil => rfl
    | cons b rest =>
      rw [wfStream] at hwf
      simp only [Bool.and_eq_true, decide_eq_true_eq] at hwf
      obtain ⟨⟨hsupp, _hb⟩, hrest⟩ := hwf
      by_cases hha : HAVE_ARGUMENT ≤ b
      · rw [if_pos hha] at hrest
        cases rest with
        | nil => rw [wfOperand] at hrest; exact absurd hrest (by simp)
        | cons a0 rest1 =>
          cases rest1 with
          | nil => rw [wfOperand] at hrest; exact absurd hrest (by simp)
          | cons a1 rest' =>
            rw [wfOperand] at hrest
            simp only [Bool.and_eq_true, decide_eq_true_eq] at hrest
            obtain ⟨⟨h0, h1⟩, hwf'⟩ := hrest
            have hlen' : rest'.length ≤ k := by
              simp only [List.length_cons] at hlen; omega
            have hih := ih rest' hlen' hwf'
            rw [parse_bytecode, if_pos hha, parseWithArg]
            obtain ⟨is', hp, hc⟩ : ∃ is', parse_bytecode rest' = some is' ∧
                compile_bytecode is' = some rest' := by
              cases hpp : parse_bytecode rest' with
              | none => rw [hpp] at hih; simp at hih
              | some is' => rw [hpp] at hih; exact ⟨is', rfl, hih⟩
            rw [hp]
            show compile_bytecode ((opname b, some (unpackShort a0 a1)) :: is') =
              some (b :: a0 :: a1 :: rest')
            have he : encodeOne (opname b, some (unpackShort a0 a1)) =
                some [b, a0, a1] := by
              rw [encodeOne, supportedOp_opmap hsupp, Option.some_bind,
                packShort_unpackShort a0 a1 h0 h1, Option.map_some']
            rw [compile_bytecode, he, hc]
            rfl
      · rw [if_neg hha] at hrest
        have hlen' : rest.length ≤ k := by
          simp only [List.length_cons] at hlen; omega
        have hih := ih rest hlen' hrest
        rw [parse_bytecode, if_neg hha]
        obtain ⟨is', hp, hc⟩ : ∃ is', parse_bytecode rest = some is' ∧
            compile_bytecode is' = some rest := by
          cases hpp : parse_bytecode rest with
          | none => rw [hpp] at hih; simp at hih
          | some is' => rw [hpp] at hih; exact ⟨is', rfl, hih⟩
        rw [hp]
        show compile_bytecode ((opname b, none) :: is') = some (b :: rest)
        have he : encodeOne (opname b, none) = some [b] := by
          rw [encodeOne, supportedOp_opmap hsupp, Option.map_some']
        rw [compile_bytecode, he, hc]
        rfl

/-- C3: for every instruction stream drawn from the supported instruction
set, encoding the result of decoding it yields the original stream:
`compile_bytecode (parse_bytecode stream) = stream`. -/
theorem encode_decode_roundtrip (s : List Nat) (hwf : wfStream s = true) :
    (parse_bytecode s).bind compile_bytecode = some s :=
  roundtrip_aux s.length s le_rfl hwf

/-- Witness for C3 on the concrete stream `LOAD_FAST 0; RETURN_VALUE`. -/
theorem encode_decode_roundtrip_witness :
    wfStream [124, 0, 0, 83] = true ∧
    (parse_bytecode [124, 0, 0, 83]).bind compile_bytecode =
      some [124, 0, 0, 83] :=
  ⟨by decide, encode_decode_roundtrip [124, 0, 0, 83] (by decide)⟩

/-- C5 counterexample: decoding does not reject unknown opcodes.  Opcode
`200` is undefined in the CPython 2 instruction set, yet `parse_bytecode`
succeeds on the stream `[200, 0, 0]`, yielding the placeholder instruction
`("<200>", 0)` that `dis.opname` supplies; no error is raised at decode
time, contrary to the claim. -/
theorem unknown_opcode_decodes :
    supportedOp 200 = false ∧
    parse_bytecode [200, 0, 0] = some [("<200>", some 0)] := by
  constructor
  · decide
  · decide

/-- C5 amended: an unknown opcode is not silently skipped, but the failure
surfaces only when the decoded sequence is re-encoded: any instruction
sequence containing an operation name outside `dis.opmap` (such as a
placeholder `"<op>"` name) fails to compile. -/
theorem unknown_opcode_fails_at_encode (ops : List Instr)
    (h : ∃ p ∈ ops, opmap p.1 = none) :
    compile_bytecode ops = none := by
  induction ops with
  | nil => obtain ⟨p, hp, _⟩ := h; exact absurd hp (List.not_mem_nil p)
  | cons q rest ih =>
    obtain ⟨p, hp, hnone⟩ := h
    rw [compile_bytecode]
    rcases List.mem_cons.mp hp with heq | hmem
    · subst heq
      have : encodeOne p = none := by
        rcases p with ⟨op, arg⟩
        cases arg with
        | none => rw [encodeOne, hnone]; rfl
        | some x => rw [encodeOne, hnone]; rfl
      rw [this]
    · cases hq : encodeOne q with
      | none => rfl
      | some e => rw [ih ⟨p, hmem, hnone⟩]

/-- Witness for C5's amended theorem at the placeholder instruction that
`parse_bytecode [200, 0, 0]` produces. -/
theorem unknown_opcode_fails_at_encode_witness :
    compile_bytecode [("<200>", some 0)] = none :=
  unknown_opcode_fails_at_encode [("<200>", some 0)]
    ⟨("<200>", some 0), List.mem_singleton.mpr rfl, by decide⟩

/-- `dis.hasname`: the list of opcodes whose operand indexes `co_names`
(CPython 2: STORE_NAME, DELETE_NAME, STORE_ATTR, DELETE_ATTR,
STORE_GLOBAL, DELETE_GLOBAL, LOAD_NAME, LOAD_ATTR, IMPORT_NAME,
IMPORT_FROM, LOAD_GLOBAL).  Note that it is a list of numeric opcodes,
not of names. -/
def dis_hasname : List Nat := [90, 91, 95, 96, 97, 98, 101, 106, 108, 109, 116]

/-- Python equality between a symbolic-name string and a numeric opcode,
as evaluated element-wise by the membership test `op in dis.hasname` in
`patch_load_and_store`.  At that point `op` is the *string* produced by
`parse_bytecode` while `dis.hasname` holds *integers*, and in Python a
`str` never compares equal to an `int`, so this is constantly false. -/
def strEqOpcode (_ : String) (_ : Nat) : Bool := false

/-- The source's membership test `op in dis.hasname` (string sought in a
list of integers). -/
def in_hasname (op : String) : Bool := dis_hasname.any (fun n => strEqOpcode op n)

theorem in_hasname_false (op : String) : in_hasname op = false := rfl

/-- `arg += n` on a decoded operand: adding to `None` is a `TypeError`. -/
def addTo : Option Int → Int → Except String (Option Int)
  | some a, n => .ok (some (a + n))
  | none, _ => .error "TypeError"

/-- The error message raised on a `LOAD_CLOSURE` instruction. -/
def closureMsg : String :=
  "can't create context_function for function containing closure"

deriving instance DecidableEq for Except

/-- The body of `patch_load_and_store`'s loop: one decoded instruction is
rewritten according to the `elif` chain of the source (the chain order is
preserved; the final `elif op in dis.hasname` test compares a string with
numeric opcodes, see `strEqOpcode`). -/
def patchOne (argcount nglobals ncellandfreevars : Nat) : Instr → Except String Instr
  | (op, arg) =>
    if op = "LOAD_FAST" then
      (addTo arg ((nglobals : Int) + ncellandfreevars)).map (fun a => ("LOAD_NAME", a))
    else if op = "STORE_FAST" then
      (addTo arg ((nglobals : Int) + ncellandfreevars)).map (fun a => ("STORE_NAME", a))
    else if op = "DELETE_FAST" then
      (addTo arg ((nglobals : Int) + ncellandfreevars)).map (fun a => ("DELETE_NAME", a))
    else if op = "LOAD_GLOBAL" then .ok ("LOAD_NAME", arg)
    else if op = "STORE_GLOBAL" then .ok ("STORE_NAME", arg)
    else if op = "DELETE_GLOBAL" then .ok ("DELETE_NAME", arg)
    else if op = "LOAD_DEREF" then
      (addTo arg (nglobals : Int)).map (fun a => ("LOAD_NAME", a))
    else if op = "STORE_DEREF" then
      (addTo arg (nglobals : Int)).map (fun a => ("STORE_NAME", a))
    else if op = "LOAD_CLOSURE" then .error closureMsg
    else if in_hasname op then (addTo arg (argcount : Int)).map (fun a => (op, a))
    else .ok (op, arg)

/-- `patch_load_and_store`: rewrite each decoded instruction in turn;
a raised error aborts the whole generator. -/
def patch_load_and_store (argcount nglobals ncellandfreevars : Nat) :
    List Instr → Except String (List Instr)
  | [] => .ok []
  | p :: rest =>
    match patchOne argcount nglobals ncellandfreevars p with
    | .error e => .error e
    | .ok q =>
      match patch_load_and_store argcount nglobals ncellandfreevars rest with
      | .error e => .error e
      | .ok qs => .ok (q :: qs)

/-- C2 counterexample: `LOAD_ATTR` is a name-indexed operation
(opcode 106 is in `dis.hasname`), and the claim says its operand is
increased by the argument count (here 3), i.e. `LOAD_ATTR 1` should
become `LOAD_ATTR 4`.  The code's `elif op in dis.hasname` test compares
the string `"LOAD_ATTR"` with the numeric opcodes in `dis.hasname` and
never succeeds, so the instruction passes through unchanged. -/
theorem hasname_shift_never_applied :
    patch_load_and_store 3 0 0 [("LOAD_ATTR", some 1)] =
      .ok [("LOAD_ATTR", some 1)] ∧
    patch_load_and_store 3 0 0 [("LOAD_ATTR", some 1)] ≠
      .ok [("LOAD_ATTR", some 4)] := by
  constructor
  · decide
  · decide

set_option maxHeartbeats 1600000 in
/-- C2 amended: the per-instruction rewrite table actually implemented.
Local load/store/delete become the by-name operation with operand
increased by the globals-zone size plus the cell-and-free-variable-zone
size; global load/store/delete become by-name with operand unchanged;
closure-cell load/store (`LOAD_DEREF`/`STORE_DEREF`) become by-name with
operand increased by the globals-zone size; `LOAD_CLOSURE` raises; and
every other instruction -- including the other name-indexed operations
such as `LOAD_ATTR`, whose operands the claim said were increased by the
argument count -- passes through completely unchanged, because the
`op in dis.hasname` membership test compares a name string against
numeric opcodes and never matches. -/
theorem patch_rewrite_table (a g c : Nat) (op : String) (arg : Int) :
    patch_load_and_store a g c [(op, some arg)] =
      if op = "LOAD_FAST" then .ok [("LOAD_NAME", some (arg + ((g : Int) + c)))]
      else if op = "STORE_FAST" then .ok [("STORE_NAME", some (arg + ((g : Int) + c)))]
      else if op = "DELETE_FAST" then .ok [("DELETE_NAME", some (arg + ((g : Int) + c)))]
      else if op = "LOAD_GLOBAL" then .ok [("LOAD_NAME", some arg)]
      else if op = "STORE_GLOBAL" then .ok [("STORE_NAME", some arg)]
      else if op = "DELETE_GLOBAL" then .ok [("DELETE_NAME", some arg)]
      else if op = "LOAD_DEREF" then .ok [("LOAD_NAME", some (arg + (g : Int)))]
      else if op = "STORE_DEREF" then .ok [("STORE_NAME", some (arg + (g : Int)))]
      else if op = "LOAD_CLOSURE" then .error closureMsg
      else .ok [(op, some arg)] := by
  rw [patch_load_and_store, patchOne, in_hasname_false]
  simp only [Bool.false_eq_true, if_false]
  split_ifs <;> rfl

/-- The encoded byte length of a decoded instruction: one opcode byte,
plus the two operand bytes when an operand is present
(`compile_bytecode` emits `chr(opcode)` plus `struct.pack("<h", arg)`
exactly when `arg != None`). -/
def instrLen (p : Instr) : Nat := 1 + (if p.2.isSome then 2 else 0)

/-- The name-indexed operations: the operations whose operand indexes a
table of identifier names (fast locals, globals, closure cells, and the
`dis.hasname` family). -/
def nameIndexedOps : List String :=
  ["LOAD_FAST", "STORE_FAST", "DELETE_FAST",
   "LOAD_GLOBAL", "STORE_GLOBAL", "DELETE_GLOBAL",
   "LOAD_DEREF", "STORE_DEREF", "LOAD_CLOSURE",
   "STORE_NAME", "DELETE_NAME", "STORE_ATTR", "DELETE_ATTR",
   "LOAD_NAME", "LOAD_ATTR", "IMPORT_NAME", "IMPORT_FROM"]

theorem patchOne_operand {a g c : Nat} {op : String} {arg : Option Int}
    {q : Instr} (h : patchOne a g c (op, arg) = .ok q) :
    q.2.isSome = arg.isSome := by
  rw [patchOne, in_hasname_false] at h
  simp only [Bool.false_eq_true, if_false] at h
  split_ifs at h <;> cases arg <;> simp_all [addTo, Except.map] <;>
    (subst h; rfl)

theorem patchOne_pass {a g c : Nat} {op : String} {arg : Option Int}
    (h : op ∉ nameIndexedOps) : patchOne a g c (op, arg) = .ok (op, arg) := by
  simp only [nameIndexedOps, List.mem_cons, not_or] at h
  obtain ⟨hA, hB, hC, hD, hE, hF, hG, hH, hI, _⟩ := h
  rw [patchOne, in_hasname_false]
  simp only [Bool.false_eq_true, if_false]
  rw [if_neg hA, if_neg hB, if_neg hC, if_neg hD, if_neg hE, if_neg hF,
    if_neg hG, if_neg hH, if_neg hI]

/-- C9: remapping changes only the operands of name-indexed operations.
If `patch_load_and_store` succeeds then every instruction keeps its
encoded byte length, and every instruction whose operation is not
name-indexed (jumps, constant loads, ...) is passed through completely
unchanged, operand included. -/
theorem patch_preserves_non_name_ops (a g c : Nat) :
    ∀ (ops ops' : List Instr),
      patch_load_and_store a g c ops = .ok ops' →
      ops'.map instrLen = ops.map instrLen ∧
      ∀ (i : Nat) (p : Instr), ops[i]? = some p → p.1 ∉ nameIndexedOps →
        ops'[i]? = some p := by
  intro ops
  induction ops with
  | nil =>
    intro ops' h
    rw [patch_load_and_store] at h
    obtain rfl : ([] : List Instr) = ops' := by
      injection h
    exact ⟨rfl, by intro i p hpi; simp at hpi⟩
  | cons p rest ih =>
    intro ops' h
    rw [patch_load_and_store] at h
    cases hq : patchOne a g c p with
    | error e => rw [hq] at h; exact absurd h (by simp)
    | ok q =>
      rw [hq] at h
      cases hr : patch_load_and_store a g c rest with
      | error e => rw [hr] at h; exact absurd h (by simp)
      | ok qs =>
        rw [hr] at h
        obtain rfl : q :: qs = ops' := by injection h
        obtain ⟨ihlen, ihidx⟩ := ih qs hr
        constructor
        · have hlenq : instrLen q = instrLen p := by
            rcases p with ⟨op, arg⟩
            simp [instrLen, patchOne_operand hq]
          simp [hlenq, ihlen]
        · intro i pp hpi hnot
          cases i with
          | zero =>
            obtain rfl : p = pp := by simpa using hpi
            have hpass := @patchOne_pass a g c p.1 p.2 hnot
            rw [show (p.1, p.2) = p from rfl] at hpass
            rw [hq] at hpass
            obtain rfl : q = p := by injection hpass
            simp
          | succ j =>
            simp only [List.getElem?_cons_succ] at hpi ⊢
            exact ihidx j pp hpi hnot

/-- Witness for C9 on a concrete decoded sequence: a jump and a constant
load pass through `patch_load_and_store` byte-for-byte unchanged while a
`LOAD_FAST` is renumbered, and every byte length is preserved. -/
theorem patch_preserves_non_name_ops_witness :
    ([("JUMP_ABSOLUTE", some 5), ("LOAD_CONST", some 0), ("LOAD_NAME", some 5)]
        : List Instr).map instrLen =
      ([("JUMP_ABSOLUTE", some 5), ("LOAD_CONST", some 0), ("LOAD_FAST", some 0)]
        : List Instr).map instrLen ∧
    ∀ (i : Nat) (p : Instr),
      ([("JUMP_ABSOLUTE", some 5), ("LOAD_CONST", some 0), ("LOAD_FAST", some 0)]
        : List Instr)[i]? = some p → p.1 ∉ nameIndexedOps →
      ([("JUMP_ABSOLUTE", some 5), ("LOAD_CONST", some 0), ("LOAD_NAME", some 5)]
        : List Instr)[i]? = some p :=
  patch_preserves_non_name_ops 1 2 3
    [("JUMP_ABSOLUTE", some 5), ("LOAD_CONST", some 0), ("LOAD_FAST", some 0)]
    [("JUMP_ABSOLUTE", some 5), ("LOAD_CONST", some 0), ("LOAD_NAME", some 5)]
    (by decide)

theorem except_bind_ok {e a b : Type} (x : a) (f : a → Except e b) :
    (Except.ok x).bind f = f x := rfl

theorem except_bind_error {e a b : Type} (msg : e) (f : a → Except e b) :
    (Except.error msg).bind f = Except.error msg := rfl

theorem except_map_ok {e a b : Type} (x : a) (f : a → b) :
    Except.map f (Except.ok x : Except e a) = Except.ok (f x) := rfl

theorem except_map_error {e a b : Type} (msg : e) (f : a → b) :
    Except.map f (Except.error msg : Except e a) = Except.error msg := rfl

/-- One instruction of the composed rewrite pipeline: patch the decoded
instruction, then re-encode it (`KeyError` when the patched name is not
in `dis.opmap`, `struct.error` when the operand leaves the signed-short
range). -/
def rewriteInstr (a g c : Nat) (p : Instr) : Except String (List Nat) :=
  match patchOne a g c p with
  | .error e => .error e
  | .ok q =>
    match encodeOne q with
    | none => .error "KeyError or struct.error"
    | some e => .ok e

mutual

/-- The composed pipeline
`compile_bytecode(patch_load_and_store(parse_bytecode(co_code), ...))` as
executed inside `args_to_locals`.  All three stages are generators
consumed lazily by `''.join`, so each instruction is decoded, patched and
re-encoded in turn and the first failing instruction's error surfaces. -/
def rewrite_stream (a g c : Nat) : List Nat → Except String (List Nat)
  | [] => .ok []
  | b :: rest =>
    if HAVE_ARGUMENT ≤ b then rewriteWithArg a g c b rest
    else
      (rewriteInstr a g c (opname b, none)).bind (fun enc =>
        Except.map (fun tail => enc ++ tail) (rewrite_stream a g c rest))
termination_by structural l => l

/-- The pipeline step for an opcode `≥ HAVE_ARGUMENT`: its two operand
bytes are read before the instruction is patched and re-encoded. -/
def rewriteWithArg (a g c b : Nat) : List Nat → Except String (List Nat)
  | [] => .error "struct.error"
  | [_] => .error "struct.error"
  | a0 :: a1 :: rest =>
    (rewriteInstr a g c (opname b, some (unpackShort a0 a1))).bind (fun enc =>
      Except.map (fun tail => enc ++ tail) (rewrite_stream a g c rest))
termination_by structural l => l

end

/-- A CPython 2 code object, with the fields `context_function` reads.
Constants are modelled as opaque naturals (the module never inspects
them). -/
structure Code where
  co_argcount : Nat
  co_nlocals : Nat
  co_stacksize : Nat
  co_flags : Nat
  co_code : List Nat
  co_consts : List Nat
  co_names : List String
  co_varnames : List String
  co_freevars : List String
  co_cellvars : List String
  co_filename : String
  co_name : String
  co_firstlineno : Nat
  co_lnotab : List Nat
deriving DecidableEq, Repr

/-- `args_to_locals`: rewrite the bytecode and build the replacement code
object via `new.code(0, co_nlocals + len(varnames) + nfreevars +
ncellvars, co_stacksize, co_flags & ~15, code, co_consts, co_names +
co_cellvars + co_freevars + co_varnames, (), co_filename, co_name,
co_firstlineno, co_lnotab)` -- so argcount becomes `0`, the combined name
table is installed, `varnames` becomes empty (`freevars`/`cellvars` are
omitted and default to empty), and `flags & ~15` clears the low four flag
bits (CO_OPTIMIZED, CO_NEWLOCALS, CO_VARARGS, CO_VARKEYWORDS), i.e.
rounds the flags down to a multiple of 16. -/
def args_to_locals (co : Code) : Except String Code :=
  match rewrite_stream co.co_argcount co.co_names.length
      (co.co_freevars.length + co.co_cellvars.length) co.co_code with
  | .error e => .error e
  | .ok s =>
    .ok { co_argcount := 0
          co_nlocals := co.co_nlocals + co.co_varnames.length +
            co.co_freevars.length + co.co_cellvars.length
          co_stacksize := co.co_stacksize
          co_flags := co.co_flags / 16 * 16
          co_code := s
          co_consts := co.co_consts
          co_names := co.co_names ++ co.co_cellvars ++ co.co_freevars ++
            co.co_varnames
          co_varnames := []
          co_freevars := []
          co_cellvars := []
          co_filename := co.co_filename
          co_name := co.co_name
          co_firstlineno := co.co_firstlineno
          co_lnotab := co.co_lnotab }

/-- A Python 2 function object as `context_function` sees it: its code
object, the contents of its closure cells *at decoration time*
(`cell.cell_contents` for each cell in `func_closure`), and its default
values.  `α` is the type of runtime values. -/
structure PyFunction (α : Type) where
  func_code : Code
  func_closure : List α
  func_defaults : List α
deriving DecidableEq

/-- The decoration-time state owned by the wrapper closure returned by
`context_function`: the rebuilt code object and `free_var_dict`. -/
structure WrappedData (α : Type) where
  code : Code
  free_var_dict : List (String × α)
deriving DecidableEq

/-- `free_var_dict`: `dict(zip(co_freevars[-len(func_closure):],
(cell.cell_contents for cell in func_closure)))` when `func_closure` is
truthy, else `{}`.  Kept as the association list the `dict` is built
from. -/
def free_var_dict_of (f : PyFunction α) : List (String × α) :=
  if f.func_closure.isEmpty then []
  else (f.func_code.co_freevars.drop
    (f.func_code.co_freevars.length - f.func_closure.length)).zip f.func_closure

/-- The decoration phase of `context_function f context_factory`: the
code object is rebuilt by `args_to_locals` (any error propagates to the
decoration site) and the closure values are snapshotted once.  The
returned `new_f` closes over exactly this data. -/
def context_function (f : PyFunction α) : Except String (WrappedData α) :=
  match args_to_locals f.func_code with
  | .error e => .error e
  | .ok code => .ok ⟨code, free_var_dict_of f⟩

theorem patchOne_load_closure (a g c : Nat) (arg : Option Int) :
    patchOne a g c ("LOAD_CLOSURE", arg) = .error closureMsg := rfl

theorem rewrite_closure_head (a g c x y : Nat) (rest : List Nat) :
    rewrite_stream a g c (135 :: x :: y :: rest) = .error closureMsg := by
  rw [rewrite_stream, if_pos (by decide), rewriteWithArg,
    show opname 135 = "LOAD_CLOSURE" from rfl,
    show rewriteInstr a g c ("LOAD_CLOSURE", some (unpackShort x y)) =
      .error closureMsg from rfl,
    except_bind_error]

theorem rewrite_stream_append (a g c : Nat) :
    ∀ (n : Nat) (pre : List Nat), pre.length ≤ n →
      ∀ (out s : List Nat), rewrite_stream a g c pre = .ok out →
      rewrite_stream a g c (pre ++ s) =
        match rewrite_stream a g c s with
        | .error e => .error e
        | .ok t => .ok (out ++ t) := by
  intro n
  induction n with
  | zero =>
    intro pre hlen out s h
    have : pre = [] := List.eq_nil_of_length_eq_zero (Nat.le_zero.mp hlen)
    subst this
    obtain rfl : ([] : List Nat) = out := by
      rw [rewrite_stream] at h; injection h
    rw [List.nil_append]
    cases rewrite_stream a g c s with
    | error e => rfl
    | ok t => simp
  | succ k ih =>
    intro pre hlen out s h
    cases pre with
    | nil =>
      obtain rfl : ([] : List Nat) = out := by
        rw [rewrite_stream] at h; injection h
      rw [List.nil_append]
      cases rewrite_stream a g c s with
      | error e => rfl
      | ok t => simp
    | cons b rest =>
      rw [List.cons_append]
      by_cases hha : HAVE_ARGUMENT ≤ b
      · rw [rewrite_stream, if_pos hha] at h ⊢
        cases rest with
        | nil => rw [rewriteWithArg] at h; exact absurd h (by simp)
        | cons a0 rest1 =>
          cases rest1 with
          | nil => rw [rewriteWithArg] at h; exact absurd h (by simp)
          | cons a1 rest' =>
            rw [List.cons_append, List.cons_append]
            rw [rewriteWithArg] at h ⊢
            cases hri : rewriteInstr a g c (opname b, some (unpackShort a0 a1)) with
            | error e =>
              rw [hri, except_bind_error] at h
              exact absurd h (by simp)
            | ok enc =>
              rw [hri, except_bind_ok] at h
              rw [except_bind_ok]
              cases hrw : rewrite_stream a g c rest' with
              | error msg =>
                rw [hrw, except_map_error] at h
                exact absurd h (by simp)
              | ok tail =>
                rw [hrw, except_map_ok] at h
                obtain rfl : enc ++ tail = out := by injection h
                have hlen' : rest'.length ≤ k := by
                  simp only [List.length_cons] at hlen; omega
                rw [ih rest' hlen' tail s hrw]
                cases rewrite_stream a g c s with
                | error msg => rfl
                | ok t => simp [except_map_ok, List.append_assoc]
      · rw [rewrite_stream, if_neg hha] at h ⊢
        cases hri : rewriteInstr a g c (opname b, none) with
        | error e =>
          rw [hri, except_bind_error] at h
          exact absurd h (by simp)
        | ok enc =>
          rw [hri, except_bind_ok] at h
          rw [except_bind_ok]
          cases hrw : rewrite_stream a g c rest with
          | error msg =>
            rw [hrw, except_map_error] at h
            exact absurd h (by simp)
          | ok tail =>
            rw [hrw, except_map_ok] at h
            obtain rfl : enc ++ tail = out := by injection h
            have hlen' : rest.length ≤ k := by
              simp only [List.length_cons] at hlen; omega
            rw [ih rest hlen' tail s hrw]
            cases rewrite_stream a g c s with
            | error msg => rfl
            | ok t => simp [except_map_ok, List.append_assoc]

/-- C4: decorating a function whose bytecode contains a `LOAD_CLOSURE`
instruction (opcode 135, a reference to an enclosing function's variable)
makes `context_function` raise `ContextFunctionError` with the message
`closureMsg` at decoration time, before any wrapper is produced.  The
hypothesis says the instruction sits at an instruction boundary after a
prefix that rewrites cleanly.  (The embedding is pure: `f` itself is read
but never written, so the original function object is untouched.) -/
theorem closure_rejected {α : Type} (f : PyFunction α) (pre out : List Nat)
    (x y : Nat) (rest : List Nat)
    (hcode : f.func_code.co_code = pre ++ 135 :: x :: y :: rest)
    (hpre : rewrite_stream f.func_code.co_argcount f.func_code.co_names.length
      (f.func_code.co_freevars.length + f.func_code.co_cellvars.length) pre =
      .ok out) :
    context_function f = .error closureMsg := by
  rw [context_function, args_to_locals, hcode,
    rewrite_stream_append _ _ _ pre.length pre le_rfl out _ hpre,
    rewrite_closure_head]

/-- Witness for C4: a one-instruction function body `LOAD_CLOSURE 0`
(with one cell variable) is rejected at decoration time. -/
theorem closure_rejected_witness :
    context_function
      { func_code :=
          { co_argcount := 1, co_nlocals := 1, co_stacksize := 1,
            co_flags := 3, co_code := [135, 0, 0], co_consts := [0],
            co_names := [], co_varnames := ["x"], co_freevars := [],
            co_cellvars := ["a"], co_filename := "f.py", co_name := "f",
            co_firstlineno := 1, co_lnotab := [] },
        func_closure := ([] : List Nat), func_defaults := [] } =
      .error closureMsg :=
  closure_rejected _ [] [] 0 0 [] rfl rfl

/-- C6: on success, the executable unit built by `args_to_locals` has
argument count zero, an empty fast-local name table, and the
fast-local-optimization flag bit (CO_OPTIMIZED, bit 0) cleared -- i.e.
fast-local addressing is disabled -- while the stack-size hint, constant
pool, source filename, qualified name, and line-number table are copied
unchanged from the original. -/
theorem args_to_locals_metadata (co co' : Code)
    (h : args_to_locals co = .ok co') :
    co'.co_argcount = 0 ∧ co'.co_varnames = [] ∧
    co'.co_flags &&& 1 = 0 ∧
    co'.co_stacksize = co.co_stacksize ∧ co'.co_consts = co.co_consts ∧
    co'.co_filename = co.co_filename ∧ co'.co_name = co.co_name ∧
    co'.co_lnotab = co.co_lnotab := by
  rw [args_to_locals] at h
  cases hrw : rewrite_stream co.co_argcount co.co_names.length
      (co.co_freevars.length + co.co_cellvars.length) co.co_code with
  | error e => rw [hrw] at h; exact absurd h (by simp)
  | ok s =>
    rw [hrw] at h
    obtain rfl : _ = co' := by injection h
    refine ⟨rfl, rfl, ?_, rfl, rfl, rfl, rfl, rfl⟩
    rw [Nat.and_one_is_mod]
    show co.co_flags / 16 * 16 % 2 = 0
    omega

/-- Witness for C6 on a concrete code object (`LOAD_FAST 0;
RETURN_VALUE`, one global name, one local). -/
theorem args_to_locals_metadata_witness :
    (0 : Nat) = 0 ∧ ([] : List String) = [] ∧
    (64 : Nat) &&& 1 = 0 ∧ (1 : Nat) = 1 ∧ ([0] : List Nat) = [0] ∧
    "f.py" = "f.py" ∧ "f" = "f" ∧ ([] : List Nat) = [] :=
  args_to_locals_metadata
    { co_argcount := 1, co_nlocals := 1, co_stacksize := 1, co_flags := 67,
      co_code := [124, 0, 0, 83], co_consts := [0], co_names := ["n"],
      co_varnames := ["x"], co_freevars := [], co_cellvars := [],
      co_filename := "f.py", co_name := "f", co_firstlineno := 1,
      co_lnotab := [] }
    { co_argcount := 0, co_nlocals := 2, co_stacksize := 1, co_flags := 64,
      co_code := [101, 1, 0, 83], co_consts := [0], co_names := ["n", "x"],
      co_varnames := [], co_freevars := [], co_cellvars := [],
      co_filename := "f.py", co_name := "f", co_firstlineno := 1,
      co_lnotab := [] }
    (by decide)

/-- A value held in the namespace: a plain Python object (a call argument,
default, or captured closure value), the excess-positional tuple bound to
the `*args` collector, or the keyword dict bound to the `**kwargs`
collector. -/
inductive PyVal (α : Type) where
  | obj : α → PyVal α
  | tuple : List α → PyVal α
  | dict : List (String × α) → PyVal α
deriving DecidableEq, Repr

variable {α : Type}

/-- The namespace produced by the context factory and mutated by the
binding phase, modelled as an association list read through
`List.lookup`. -/
abbrev NS (α : Type) := List (String × PyVal α)

/-- `loc[key] = value`: overwrite-or-insert into a mapping.  Only lookup
behaviour matters, so the binding is placed in front and stale entries
for the key are dropped. -/
def nsSet {β : Type} (ns : List (String × β)) (k : String) (v : β) :
    List (String × β) :=
  (k, v) :: ns.filter (fun p => p.1 != k)

/-- A sequence of `loc[key] = value` item assignments for plain values:
used for seeding `free_var_dict` (`for key, value in
free_var_dict.items(): loc[key] = value`) and for
`loc.update(dict(zip(...)))`. -/
def setItems : NS α → List (String × α) → NS α
  | loc, [] => loc
  | loc, p :: rest => setItems (nsSet loc p.1 (PyVal.obj p.2)) rest

/-- `defaults = dict(zip(named_args[-len(func_defaults):], func_defaults))
if f.func_defaults else {}`. -/
def defaultsOf (f : PyFunction α) : List (String × α) :=
  let named_args := f.func_code.co_varnames.take f.func_code.co_argcount
  if f.func_defaults.isEmpty then []
  else (named_args.drop (named_args.length - f.func_defaults.length)).zip
    f.func_defaults

/-- `l[i]` on a Python sequence: raises `IndexError` out of range. -/
def listGet {β : Type} (l : List β) (i : Nat) : Except String β :=
  match l[i]? with
  | some x => .ok x
  | none => .error "IndexError"

theorem listGet_ok {β : Type} (l : List β) (i : Nat) (h : i < l.length) :
    listGet l i = .ok (l.get ⟨i, h⟩) := by
  rw [listGet, List.getElem?_eq_getElem h]
  rfl

/-- The `for arg in named_args[len(args):]` binding loop: each remaining
declared parameter is bound from the keyword arguments, else from the
defaults, else the call raises `TypeError` (the missing-argument case). -/
def bindRemaining (kwargs defaults : List (String × α)) :
    NS α → List String → Except String (NS α)
  | loc, [] => .ok loc
  | loc, name :: rest =>
    match List.lookup name kwargs with
    | some v => bindRemaining kwargs defaults (nsSet loc name (PyVal.obj v)) rest
    | none =>
      match List.lookup name defaults with
      | some v => bindRemaining kwargs defaults (nsSet loc name (PyVal.obj v)) rest
      | none => .error "TypeError"

/-- The binding phase of one call of the wrapped function `new_f`
(everything before `eval`): acquire the namespace from the factory
(modelled by its output `ns0`), seed it with `free_var_dict`, then
replicate argument binding exactly as the source does.  On the
non-overflow path, after the binding loop the consumed keywords are
deleted from `kwargs` and any remainder is bound to the `**kwargs`
collector when the function declares one, else `TypeError`. -/
def newF_bind (f : PyFunction α) (free_var_dict : List (String × α))
    (ns0 : NS α) (args : List α) (kwargs : List (String × α)) :
    Except String (NS α) :=
  let loc := setItems ns0 free_var_dict
  let arg_len := f.func_code.co_argcount
  let named_args := f.func_code.co_varnames.take arg_len
  let defaults := defaultsOf f
  if arg_len < args.length then
    if f.func_code.co_flags &&& 4 ≠ 0 then
      let loc1 := setItems loc (named_args.zip (args.take arg_len))
      match listGet f.func_code.co_varnames arg_len with
      | .error e => .error e
      | .ok vname =>
        let loc2 := nsSet loc1 vname (PyVal.tuple (args.drop arg_len))
        if f.func_code.co_flags &&& 8 ≠ 0 then
          match listGet f.func_code.co_varnames (arg_len + 1) with
          | .error e => .error e
          | .ok kname => .ok (nsSet loc2 kname (PyVal.dict kwargs))
        else .ok loc2
    else .error "TypeError"
  else
    let loc1 := setItems loc ((named_args.take args.length).zip args)
    let step : Except String (NS α) :=
      if f.func_code.co_flags &&& 4 ≠ 0 then
        match listGet f.func_code.co_varnames arg_len with
        | .error e => .error e
        | .ok vname => .ok (nsSet loc1 vname (PyVal.tuple []))
      else .ok loc1
    match step with
    | .error e => .error e
    | .ok loc2 =>
      match bindRemaining kwargs defaults loc2 (named_args.drop args.length) with
      | .error e => .error e
      | .ok loc3 =>
        let kwargs2 := kwargs.filter
          (fun p => !(named_args.drop args.length).contains p.1)
        if kwargs2.isEmpty then .ok loc3
        else if f.func_code.co_flags &&& 8 ≠ 0 then
          match listGet f.func_code.co_varnames
              (if f.func_code.co_flags &&& 4 ≠ 0 then arg_len + 1 else arg_len) with
          | .error e => .error e
          | .ok kname => .ok (nsSet loc3 kname (PyVal.dict kwargs2))
        else .error "TypeError"

/-- A full call of `new_f`: the binding phase followed by
`eval(code, f.func_globals, loc)`, the latter abstracted as an arbitrary
body evaluator applied to the bound namespace.  An error raised during
binding propagates before `evalBody` is ever applied. -/
def new_f {β : Type} (f : PyFunction α) (free_var_dict : List (String × α))
    (evalBody : NS α → β) (ns0 : NS α) (args : List α)
    (kwargs : List (String × α)) : Except String β :=
  match newF_bind f free_var_dict ns0 args kwargs with
  | .error e => .error e
  | .ok loc => .ok (evalBody loc)

/-- The function `f(a, b=2, *c, **d)` of the claim: two declared
positional parameters, one default, a `*args` collector and a `**kwargs`
collector (CO_VARARGS and CO_VARKEYWORDS set in the flags), with a
trivial `return None` body. -/
def fABD : PyFunction Nat :=
  { func_code :=
      { co_argcount := 2, co_nlocals := 4, co_stacksize := 1, co_flags := 79,
        co_code := [100, 0, 0, 83], co_consts := [0], co_names := [],
        co_varnames := ["a", "b", "c", "d"], co_freevars := [],
        co_cellvars := [], co_filename := "f.py", co_name := "f",
        co_firstlineno := 1, co_lnotab := [] },
    func_closure := [], func_defaults := [2] }

/-- C1 counterexample: for `f(a, b=2, *c, **d)`, the claim says
`wrap(f)(1)` binds the `**kwargs` collector `d` to an empty mapping.  In
the code the collector is only bound when unconsumed keywords remain
(`if kwargs:`), so the binding phase of `wrap(fABD)(1)` leaves `d`
entirely unbound -- in particular it is not bound to the empty dict. -/
theorem kwargs_collector_left_unbound :
    Except.map (fun ns => List.lookup "d" ns) (newF_bind fABD [] [] [1] []) =
      .ok none ∧
    Except.map (fun ns => List.lookup "d" ns) (newF_bind fABD [] [] [1] []) ≠
      .ok (some (PyVal.dict [])) := by
  constructor
  · decide
  · decide

/-- C1 amended: the binding phase of `wrap(f)(1)` for `f(a, b=2, *c,
**d)` binds `a = 1` (positional), `b = 2` (default) and `c = ()` (empty
excess tuple), exactly as ordinary argument binding would, but leaves the
`**kwargs` collector `d` unbound because no excess keyword arguments were
supplied. -/
theorem wrap_one_positional_binding :
    Except.map (fun ns => (List.lookup "a" ns, List.lookup "b" ns,
        List.lookup "c" ns, List.lookup "d" ns))
      (newF_bind fABD [] [] [1] []) =
      .ok (some (PyVal.obj 1), some (PyVal.obj 2),
        some (PyVal.tuple []), none) := by
  decide

/-- C10: when a call supplies more positional arguments than declared
parameters and the function declares a `*args` collector but no
`**kwargs` collector, the supplied keyword arguments are silently
discarded: the binding phase succeeds, and its result does not depend on
the keyword arguments at all (so none of them is bound anywhere in the
namespace). -/
theorem overflow_discards_kwargs (f : PyFunction α)
    (fvd : List (String × α)) (ns0 : NS α) (args : List α)
    (kwargs : List (String × α))
    (hover : f.func_code.co_argcount < args.length)
    (hva : f.func_code.co_flags &&& 4 ≠ 0)
    (hvk : f.func_code.co_flags &&& 8 = 0)
    (hv : f.func_code.co_argcount < f.func_code.co_varnames.length) :
    newF_bind f fvd ns0 args kwargs = newF_bind f fvd ns0 args [] ∧
    ∃ ns, newF_bind f fvd ns0 args kwargs = .ok ns := by
  have hvk2 : ¬ f.func_code.co_flags &&& 8 ≠ 0 := fun hh => hh hvk
  have hg := listGet_ok f.func_code.co_varnames f.func_code.co_argcount hv
  have hrun : ∀ kw : List (String × α), newF_bind f fvd ns0 args kw =
      .ok (nsSet (setItems (setItems ns0 fvd)
          ((f.func_code.co_varnames.take f.func_code.co_argcount).zip
            (args.take f.func_code.co_argcount)))
        (f.func_code.co_varnames.get ⟨f.func_code.co_argcount, hv⟩)
        (PyVal.tuple (args.drop f.func_code.co_argcount))) := by
    intro kw
    rw [newF_bind]
    simp only [if_pos hover, if_pos hva, hg, if_neg hvk2]
  exact ⟨by rw [hrun, hrun], ⟨_, hrun kwargs⟩⟩

/-- Witness for C10: `f(x, *v)` (flags without CO_VARKEYWORDS) called
with two positionals and a keyword argument. -/
theorem overflow_discards_kwargs_witness :
    let fV : PyFunction Nat :=
      { func_code :=
          { co_argcount := 1, co_nlocals := 2, co_stacksize := 1,
            co_flags := 7, co_code := [100, 0, 0, 83], co_consts := [0],
            co_names := [], co_varnames := ["x", "v"], co_freevars := [],
            co_cellvars := [], co_filename := "f.py", co_name := "f",
            co_firstlineno := 1, co_lnotab := [] },
        func_closure := [], func_defaults := [] }
    newF_bind fV [] [] [5, 6] [("z", 9)] = newF_bind fV [] [] [5, 6] [] ∧
    ∃ ns, newF_bind fV [] [] [5, 6] [("z", 9)] = .ok ns :=
  overflow_discards_kwargs _ [] [] [5, 6] [("z", 9)]
    (by decide) (by decide) (by decide) (by decide)

theorem bindRemaining_missing (kwargs defaults : List (String × α)) :
    ∀ (remaining : List String) (loc : NS α),
      (∃ name ∈ remaining, List.lookup name kwargs = none ∧
        List.lookup name defaults = none) →
      bindRemaining kwargs defaults loc remaining = .error "TypeError" := by
  intro remaining
  induction remaining with
  | nil =>
    intro loc h
    obtain ⟨name, hmem, _⟩ := h
    exact absurd hmem (List.not_mem_nil name)
  | cons nm rest ih =>
    intro loc h
    rw [bindRemaining]
    cases hk : List.lookup nm kwargs with
    | some v =>
      obtain ⟨name, hmem, h1, h2⟩ := h
      have hne : name ≠ nm := by
        rintro rfl; rw [hk] at h1; exact Option.noConfusion h1
      have hmem2 : name ∈ rest := by
        rcases List.mem_cons.mp hmem with rfl | hm
        · exact absurd rfl hne
        · exact hm
      exact ih (nsSet loc nm (PyVal.obj v)) ⟨name, hmem2, h1, h2⟩
    | none =>
      cases hd : List.lookup nm defaults with
      | some v =>
        obtain ⟨name, hmem, h1, h2⟩ := h
        have hne : name ≠ nm := by
          rintro rfl; rw [hd] at h2; exact Option.noConfusion h2
        have hmem2 : name ∈ rest := by
          rcases List.mem_cons.mp hmem with rfl | hm
          · exact absurd rfl hne
          · exact hm
        exact ih (nsSet loc nm (PyVal.obj v)) ⟨name, hmem2, h1, h2⟩
      | none => rfl

/-- C8 amended: for every call in which some declared positional
parameter receives no positional argument, matches no keyword argument,
and has no default, the wrapped call fails before the body is ever
evaluated -- the result is independent of the (arbitrary) body evaluator
-- but the raised error is a bare `TypeError` (the spec's
MissingArgument case) that does not name the parameter. -/
theorem missing_argument_error {β : Type} (f : PyFunction α)
    (fvd : List (String × α)) (evalBody : NS α → β) (ns0 : NS α)
    (args : List α) (kwargs : List (String × α))
    (hle : args.length ≤ f.func_code.co_argcount)
    (hva : f.func_code.co_flags &&& 4 ≠ 0 →
      f.func_code.co_argcount < f.func_code.co_varnames.length)
    (hmiss : ∃ name ∈ (f.func_code.co_varnames.take
        f.func_code.co_argcount).drop args.length,
      List.lookup name kwargs = none ∧
      List.lookup name (defaultsOf f) = none) :
    new_f f fvd evalBody ns0 args kwargs = .error "TypeError" := by
  have hnlt : ¬ f.func_code.co_argcount < args.length := Nat.not_lt.mpr hle
  have hb : newF_bind f fvd ns0 args kwargs = .error "TypeError" := by
    by_cases h4 : f.func_code.co_flags &&& 4 ≠ 0
    · have hg := listGet_ok f.func_code.co_varnames f.func_code.co_argcount
        (hva h4)
      rw [newF_bind]
      simp only [if_neg hnlt, if_pos h4, hg]
      rw [bindRemaining_missing kwargs (defaultsOf f) _ _ hmiss]
    · rw [newF_bind]
      simp only [if_neg hnlt, if_neg h4]
      rw [bindRemaining_missing kwargs (defaultsOf f) _ _ hmiss]
  rw [new_f, hb]

/-- The function `f(a)`: one declared parameter, no defaults, no
collectors. -/
def fA : PyFunction Nat :=
  { func_code :=
      { co_argcount := 1, co_nlocals := 1, co_stacksize := 1,
        co_flags := 67, co_code := [100, 0, 0, 83], co_consts := [0],
        co_names := [], co_varnames := ["a"], co_freevars := [],
        co_cellvars := [], co_filename := "f.py", co_name := "f",
        co_firstlineno := 1, co_lnotab := [] },
    func_closure := [], func_defaults := [] }

/-- Witness for C8's amended theorem: `wrap(f)()` for `f(a)` fails with
the bare `TypeError` before the body evaluator runs. -/
theorem missing_argument_error_witness :
    new_f fA [] (fun _ => (0 : Nat)) [] [] [] = .error "TypeError" :=
  missing_argument_error fA [] (fun _ => (0 : Nat)) [] [] []
    (by decide) (by decide) ⟨"a", by decide, by decide, by decide⟩

/-- C8 counterexample: the claim says the failure names the missing
parameter.  `wrap(f)()` for `f(a)` raises the bare `TypeError` (the
source's `raise TypeError` carries no message), whose text does not
contain the parameter name `"a"`: the character `a` does not occur in
it. -/
theorem missing_argument_not_named :
    new_f fA [] (fun _ => (0 : Nat)) [] [] [] = .error "TypeError" ∧
    ("a".toList.all (fun ch => !("TypeError".toList.contains ch))) = true := by
  constructor
  · decide
  · decide

theorem lookup_append {β : Type} (k : String) (l1 l2 : List (String × β)) :
    List.lookup k (l1 ++ l2) =
      match List.lookup k l1 with
      | some v => some v
      | none => List.lookup k l2 := by
  induction l1 with
  | nil => rfl
  | cons p rest ih =>
    rcases p with ⟨k1, v1⟩
    rw [List.cons_append]
    by_cases h : k = k1
    · have hb : (k == k1) = true := beq_iff_eq.mpr h
      simp [List.lookup, hb]
    · have hb : (k == k1) = false := beq_eq_false_iff_ne.mpr h
      simp [List.lookup, hb, ih]

theorem lookup_filter_ne {β : Type} (k k1 : String) (h : k ≠ k1)
    (l : List (String × β)) :
    List.lookup k (l.filter (fun p => p.1 != k1)) = List.lookup k l := by
  induction l with
  | nil => rfl
  | cons p rest ih =>
    rcases p with ⟨kp, vp⟩
    by_cases hp : kp = k1
    · have hk : (k == kp) = false :=
        beq_eq_false_iff_ne.mpr (by rw [hp]; exact h)
      have hbp : (kp != k1) = false := by simp [hp]
      simp [List.filter_cons, hbp, List.lookup, hk, ih]
    · have hbp : (kp != k1) = true := by simp [hp]
      by_cases hk : k = kp
      · have hb : (k == kp) = true := beq_iff_eq.mpr hk
        simp [List.filter_cons, hbp, List.lookup, hb]
      · have hb : (k == kp) = false := beq_eq_false_iff_ne.mpr hk
        simp [List.filter_cons, hbp, List.lookup, hb, ih]

theorem lookup_nsSet {β : Type} (ns : List (String × β)) (k k2 : String)
    (v : β) :
    List.lookup k2 (nsSet ns k v) =
      if k2 = k then some v else List.lookup k2 ns := by
  rw [nsSet]
  by_cases h : k2 = k
  · have hb : (k2 == k) = true := beq_iff_eq.mpr h
    simp [List.lookup, hb, h]
  · have hb : (k2 == k) = false := beq_eq_false_iff_ne.mpr h
    simp [List.lookup, hb, h, lookup_filter_ne k2 k h ns]

theorem lookup_setItems (it : List (String × α)) :
    ∀ (ns0 : NS α) (k : String),
      List.lookup k (setItems ns0 it) =
        match List.lookup k it.reverse with
        | some v => some (PyVal.obj v)
        | none => List.lookup k ns0 := by
  induction it with
  | nil => intro ns0 k; rfl
  | cons p rest ih =>
    intro ns0 k
    rw [setItems, ih, show (p :: rest).reverse = rest.reverse ++ [p] from by simp]
    rw [lookup_append]
    cases hl : List.lookup k rest.reverse with
    | some v => rfl
    | none =>
      rw [lookup_nsSet]
      by_cases h : k = p.1
      · have hb : (k == p.1) = true := beq_iff_eq.mpr h
        simp [List.lookup, hb, h]
      · have hb : (k == p.1) = false := beq_eq_false_iff_ne.mpr h
        simp [List.lookup, hb, h]

/-- C7: (1) the `free_var_dict` owned by the wrapper equals the snapshot
taken from the closure-cell contents at decoration time (the last
`len(func_closure)` free-variable names zipped with the cell values, or
empty when there is no closure); (2) the binding phase of a later call is
oblivious to any post-decoration state of the closure cells -- replacing
the function's cell contents by arbitrary `cells` changes nothing,
because `new_f` reads only the precomputed `free_var_dict`; (3) at the
start of every call, each captured name is written into the namespace
with its decoration-time value. -/
theorem closure_snapshot (f : PyFunction α) (w : WrappedData α)
    (h : context_function f = .ok w) (cells : List α) :
    w.free_var_dict =
      (if f.func_closure.isEmpty then []
       else (f.func_code.co_freevars.drop
         (f.func_code.co_freevars.length - f.func_closure.length)).zip
         f.func_closure) ∧
    (∀ (ns0 : NS α) (args : List α) (kwargs : List (String × α)),
      newF_bind { f with func_closure := cells } w.free_var_dict ns0 args
          kwargs =
        newF_bind f w.free_var_dict ns0 args kwargs) ∧
    (∀ (ns0 : NS α) (k : String) (v : α),
      List.lookup k w.free_var_dict.reverse = some v →
      List.lookup k (setItems ns0 w.free_var_dict) = some (PyVal.obj v)) := by
  have hw : w.free_var_dict = free_var_dict_of f := by
    rw [context_function] at h
    cases ha : args_to_locals f.func_code with
    | error e => rw [ha] at h; exact absurd h (by simp)
    | ok code =>
      rw [ha] at h
      obtain rfl : (⟨code, free_var_dict_of f⟩ : WrappedData α) = w := by
        injection h
      rfl
  refine ⟨by rw [hw, free_var_dict_of], ?_, ?_⟩
  · intro ns0 args kwargs
    rfl
  · intro ns0 k v hv
    rw [lookup_setItems, hv]

/-- A function `g` capturing one enclosing variable `z` (two free-variable
names, one closure cell) with value `7` at decoration time. -/
def fClo : PyFunction Nat :=
  { func_code :=
      { co_argcount := 0, co_nlocals := 0, co_stacksize := 1, co_flags := 3,
        co_code := [100, 0, 0, 83], co_consts := [0], co_names := [],
        co_varnames := [], co_freevars := ["u", "z"], co_cellvars := [],
        co_filename := "f.py", co_name := "g", co_firstlineno := 1,
        co_lnotab := [] },
    func_closure := [7], func_defaults := [] }

/-- Witness for C7: decorating `fClo` snapshots `z = 7`, and a later call
seeds its namespace with that value. -/
theorem closure_snapshot_witness :
    List.lookup "z" (setItems ([] : NS Nat) [("z", 7)]) =
      some (PyVal.obj 7) :=
  ((closure_snapshot fClo
      ⟨{ co_argcount := 0, co_nlocals := 2, co_stacksize := 1, co_flags := 0,
         co_code := [100, 0, 0, 83], co_consts := [0],
         co_names := ["u", "z"], co_varnames := [], co_freevars := [],
         co_cellvars := [], co_filename := "f.py", co_name := "g",
         co_firstlineno := 1, co_lnotab := [] }, [("z", 7)]⟩
      (by decide) [99]).2.2) [] "z" 7 (by decide)

end ContextFn
